import Mathlib

/-!
Shallow embedding of the project-management backend
(routes/auth.js, routes/project.js, routes/task.js, schema.js).

The document store is modelled as in-memory lists of records in insertion
order; MongoDB `find` with a filter document becomes `List.filter`,
`skip`/`limit` become `List.drop`/`List.take`, `findById` becomes
`List.find?` on the id field, and `countDocuments(filter)` becomes the
length of the filtered list.  Object ids are natural numbers.
-/

/-- User role, per `userSchema.role` enum ["user", "admin"] in schema.js. -/
inductive Role
  | user
  | admin
deriving DecidableEq

/-- A document id (MongoDB ObjectId), modelled as a natural number. -/
abbrev DocId := Nat

/-- A user record, per `userSchema` in schema.js.  `password` stores the
bcrypt hash value. -/
structure UserRec where
  id : DocId
  name : String
  email : String
  password : String
  role : Role
deriving DecidableEq

/-- A project record, per `projectSchema` in schema.js. -/
structure ProjectRec where
  id : DocId
  title : String
  description : String
  owner : DocId
  members : List DocId
deriving DecidableEq

/-- Task status, per `taskSchema.status` enum ['todo','in_progress','done']. -/
inductive TaskStatus
  | todo
  | in_progress
  | done
deriving DecidableEq

/-- Task priority, per `taskSchema.priority` enum ['low','high','medium']. -/
inductive TaskPriority
  | low
  | medium
  | high
deriving DecidableEq

/-- A task record, per `taskSchema` in schema.js. -/
structure TaskRec where
  id : DocId
  title : String
  description : String
  status : TaskStatus
  priority : TaskPriority
  createdby : DocId
  project : DocId
  assignedto : DocId
  duedate : Option String
deriving DecidableEq

/-- The whole document store: the three collections in insertion order plus
a counter supplying the next fresh ObjectId. -/
structure Store where
  users : List UserRec
  projects : List ProjectRec
  tasks : List TaskRec
  nextId : DocId
deriving DecidableEq

/-- `User.findById` -/
def findUser (s : Store) (i : DocId) : Option UserRec :=
  s.users.find? (fun u => u.id == i)

/-- `Project.findById` -/
def findProject (s : Store) (i : DocId) : Option ProjectRec :=
  s.projects.find? (fun p => p.id == i)

/-- `Task.findById` -/
def findTask (s : Store) (i : DocId) : Option TaskRec :=
  s.tasks.find? (fun t => t.id == i)

/-- The authenticated caller (`req.user`): id and role decoded from the
bearer token. -/
structure Caller where
  id : DocId
  role : Role
deriving DecidableEq

/-- A `page` or `limit` query parameter as the route sees it: absent,
present but not parsing to a number, or a numeric value. -/
inductive QueryParam
  | absent
  | nonNumeric
  | num (n : Nat)
deriving DecidableEq

/-- Models `parseInt(req.query.x) || 1`: an absent or non-numeric parameter
parses to NaN, which is falsy, giving 1; a parsed 0 is falsy as well. -/
def parseIntOr1 : QueryParam → Nat
  | .absent => 1
  | .nonNumeric => 1
  | .num 0 => 1
  | .num (n + 1) => n + 1

/-- Models `Math.ceil(total / limit)` on natural `total` and positive
`limit`. -/
def ceilDiv (a b : Nat) : Nat := (a + b - 1) / b

/-- Paginated list response `{items, page, totalPages, total}`. -/
structure PageResult (α : Type) where
  items : List α
  page : Nat
  totalPages : Nat
  total : Nat
deriving DecidableEq

/-- The non-admin visibility filter document for projects:
`{$or: [{owner: req.user.id}, {members: req.user.id}]}`. -/
def projectVisible (c : Caller) (p : ProjectRec) : Bool :=
  p.owner == c.id || p.members.contains c.id

/-- Handler of `GET /project` (routes/project.js): pagination, then the
admin branch lists every project while the non-admin branch filters by the
`$or` owner/member document. -/
def listProjects (c : Caller) (s : Store) (pageQ limitQ : QueryParam) :
    PageResult ProjectRec :=
  let page := parseIntOr1 pageQ
  let limit := parseIntOr1 limitQ
  let skip := (page - 1) * limit
  if c.role == Role.admin then
    let total := s.projects.length
    { items := (s.projects.drop skip).take limit
      page := page
      totalPages := ceilDiv total limit
      total := total }
  else
    let matching := s.projects.filter (projectVisible c)
    { items := (matching.drop skip).take limit
      page := page
      totalPages := ceilDiv matching.length limit
      total := matching.length }

/-- Ids of the projects where the caller appears in `members`, from
`Project.find({members: req.user.id}).select('_id')` in the task list
route. -/
def memberProjectIds (c : Caller) (s : Store) : List DocId :=
  (s.projects.filter (fun p => p.members.contains c.id)).map (fun p => p.id)

/-- The optional `status`/`priority`/`project` query filters of
`GET /tasks`: each present filter adds an equality clause to the filter
document. -/
def taskUserFilter (statusF : Option TaskStatus) (priorityF : Option TaskPriority)
    (projectF : Option DocId) (t : TaskRec) : Bool :=
  (match statusF with | none => true | some v => t.status == v) &&
  (match priorityF with | none => true | some v => t.priority == v) &&
  (match projectF with | none => true | some v => t.project == v)

/-- Handler of `GET /tasks` (routes/task.js): admins filter only by the
user filters; non-admins additionally need
`$or: [{assignedto: req.user.id}, {project: {$in: projectIds}}]` where
`projectIds` are the projects the caller is a member of. -/
def listTasks (c : Caller) (s : Store) (pageQ limitQ : QueryParam)
    (statusF : Option TaskStatus) (priorityF : Option TaskPriority)
    (projectF : Option DocId) : PageResult TaskRec :=
  let page := parseIntOr1 pageQ
  let limit := parseIntOr1 limitQ
  let skip := (page - 1) * limit
  let pred : TaskRec → Bool :=
    if c.role == Role.admin then
      taskUserFilter statusF priorityF projectF
    else
      fun t =>
        (t.assignedto == c.id || (memberProjectIds c s).contains t.project) &&
        taskUserFilter statusF priorityF projectF t
  let matching := s.tasks.filter pred
  { items := (matching.drop skip).take limit
    page := page
    totalPages := ceilDiv matching.length limit
    total := matching.length }

/-- Outcome of `GET /tasks/:id`. `notFoundTask` and `notFoundProject` both
answer 404 but carry the two distinct error messages of the route. -/
inductive GetTaskResult
  | ok (t : TaskRec)
  | notFoundTask
  | notFoundProject
  | forbidden
deriving DecidableEq

/-- HTTP status code of a `GET /tasks/:id` outcome. -/
def GetTaskResult.status : GetTaskResult → Nat
  | .ok _ => 200
  | .notFoundTask => 404
  | .notFoundProject => 404
  | .forbidden => 403

/-- Handler of `GET /tasks/:id` (routes/task.js): 404 when the task is
absent; admin short-circuits to 200; the assignee short-circuits to 200;
otherwise the task's project is resolved (404 "Project not found" when
missing) and membership decides between 200 and 403. -/
def getTask (c : Caller) (s : Store) (taskId : DocId) : GetTaskResult :=
  match findTask s taskId with
  | none => .notFoundTask
  | some task =>
    if c.role == Role.admin then .ok task
    else if task.assignedto == c.id then .ok task
    else
      match findProject s task.project with
      | none => .notFoundProject
      | some project =>
        if !project.members.isEmpty && project.members.contains c.id then
          .ok task
        else .forbidden

/-- Outcome of `GET /project/:id`. -/
inductive GetProjectResult
  | ok (p : ProjectRec)
  | notFound
  | forbidden
deriving DecidableEq

/-- Handler of `GET /project/:id` (routes/project.js). -/
def getProject (c : Caller) (s : Store) (projectId : DocId) : GetProjectResult :=
  match findProject s projectId with
  | none => .notFound
  | some project =>
    if c.role == Role.admin then .ok project
    else if project.owner == c.id || project.members.contains c.id then .ok project
    else .forbidden

/-- Outcome of the `POST /project` handler body. -/
inductive CreateProjectResult
  | badRequest
  | created
  | conflict
deriving DecidableEq

/-- Handler of `POST /project` (routes/project.js), after the middlewares:
zod requires non-empty title and description (400 otherwise); then
`Project.create` runs against the unique index on (title, owner) from
schema.js — a record with the same title and owner already present makes
the insert raise the duplicate-key error E11000, which the catch block
remaps to 409 Conflict, leaving the store unchanged.  There is no
pre-insert existence check in this route: the unique index is the only
guard, so the Conflict outcome here is exactly the remapped store error,
never an Internal 500. -/
def createProject (c : Caller) (s : Store) (title description : String) :
    CreateProjectResult × Store :=
  if title == "" || description == "" then (.badRequest, s)
  else if s.projects.any (fun p => p.title == title && p.owner == c.id) then
    (.conflict, s)
  else
    (.created,
     { s with
        projects := s.projects ++
          [{ id := s.nextId, title := title, description := description,
             owner := c.id, members := [] }]
        nextId := s.nextId + 1 })

/-- Outcome of the `DELETE /project/:id` or `DELETE /tasks/:id` handler
body. -/
inductive DeleteResult
  | ok
  | notFound
deriving DecidableEq

/-- Handler of `DELETE /project/:id` (routes/project.js), after the
middlewares. -/
def deleteProject (s : Store) (projectId : DocId) : DeleteResult × Store :=
  match findProject s projectId with
  | none => (.notFound, s)
  | some _ =>
    (.ok, { s with projects := s.projects.filter (fun p => p.id != projectId) })

/-- Request body of `POST /tasks`; the zod schema makes status, priority
and duedate optional. -/
structure CreateTaskBody where
  title : String
  description : String
  project : DocId
  assignedto : DocId
  status : Option TaskStatus
  priority : Option TaskPriority
  duedate : Option String
deriving DecidableEq

/-- Outcome of the `POST /tasks` handler body. -/
inductive CreateTaskResult
  | badRequest
  | notFoundProject
  | notFoundAssignee
  | conflict
  | created (taskid : DocId)
deriving DecidableEq

/-- The task document built by `Task.create` in `POST /tasks`: createdby is
the caller, and the mongoose schema defaults of schema.js fill in status
"todo" and priority "medium" when the body omits them. -/
def newTask (c : Caller) (s : Store) (b : CreateTaskBody) : TaskRec :=
  { id := s.nextId
    title := b.title
    description := b.description
    status := b.status.getD .todo
    priority := b.priority.getD .medium
    createdby := c.id
    project := b.project
    assignedto := b.assignedto
    duedate := b.duedate }

/-- Handler of `POST /tasks` (routes/task.js), after the middlewares: zod
validation, then project existence (404), assignee existence (404), a
`Task.findOne` duplicate check on (title, project, assignedto) (409), then
`Task.create` with the schema defaults; the response carries the created
document's id. -/
def createTask (c : Caller) (s : Store) (b : CreateTaskBody) :
    CreateTaskResult × Store :=
  if b.title == "" || b.description == "" then (.badRequest, s)
  else if (findProject s b.project).isNone then (.notFoundProject, s)
  else if (findUser s b.assignedto).isNone then (.notFoundAssignee, s)
  else if s.tasks.any (fun t =>
      t.title == b.title && t.project == b.project && t.assignedto == b.assignedto) then
    (.conflict, s)
  else
    (.created s.nextId,
     { s with tasks := s.tasks ++ [newTask c s b], nextId := s.nextId + 1 })

/-- Partial update body of `PATCH /tasks/:id`: the route passes `req.body`
wholesale to `Task.findByIdAndUpdate`, so every schema field can appear;
`none` means the field is absent from the body. -/
structure TaskUpdate where
  title : Option String
  description : Option String
  status : Option TaskStatus
  priority : Option TaskPriority
  createdby : Option DocId
  project : Option DocId
  assignedto : Option DocId
  duedate : Option String
deriving DecidableEq

/-- `Task.findByIdAndUpdate(taskId, updates)` field merge: each field
present in the body replaces the stored value, each absent field is left
untouched. -/
def applyUpdate (u : TaskUpdate) (t : TaskRec) : TaskRec :=
  { t with
      title := u.title.getD t.title
      description := u.description.getD t.description
      status := u.status.getD t.status
      priority := u.priority.getD t.priority
      createdby := u.createdby.getD t.createdby
      project := u.project.getD t.project
      assignedto := u.assignedto.getD t.assignedto
      duedate := match u.duedate with | some d => some d | none => t.duedate }

/-- Outcome of the `PATCH /tasks/:id` handler body: 200 with the
post-update record (`{new: true}`), or 404. -/
inductive UpdateTaskResult
  | ok (t : TaskRec)
  | notFound
deriving DecidableEq

/-- Handler of `PATCH /tasks/:id` (routes/task.js), after the middlewares:
`findById` (404 when absent) then `findByIdAndUpdate` with `{new: true}`,
responding with the updated record. -/
def updateTask (s : Store) (taskId : DocId) (u : TaskUpdate) :
    UpdateTaskResult × Store :=
  match findTask s taskId with
  | none => (.notFound, s)
  | some t =>
    (.ok (applyUpdate u t),
     { s with tasks := s.tasks.map (fun x => if x.id == taskId then applyUpdate u t else x) })

/-- Handler of `DELETE /tasks/:id` (routes/task.js), after the
middlewares. -/
def deleteTask (s : Store) (taskId : DocId) : DeleteResult × Store :=
  match findTask s taskId with
  | none => (.notFound, s)
  | some _ =>
    (.ok, { s with tasks := s.tasks.filter (fun t => t.id != taskId) })

/-- Outcome of a route guarded by the `userAuth, adminAuth` middleware
chain: 401 Unauthenticated, 403 Forbidden, or the handler's own outcome. -/
inductive MutationOutcome (α : Type)
  | unauthenticated
  | forbidden
  | handled (r : α)
deriving DecidableEq

/-- Modelled from the spec: the middleware files
(middlewares/authmiddleware.js and middlewares/isAdmin.js) are not among
the provided sources; the routes only attach them.  Per the spec, a caller
without a valid verified identity fails with `Unauthenticated` (401)
before the handler runs, and the admin gate fails with `Forbidden` (403)
for any authenticated non-admin caller, in both cases without touching the
store.  `auth = none` models a request lacking a valid verified
identity. -/
def withAdminAuth {α : Type} (auth : Option Caller) (s : Store)
    (handler : Caller → α × Store) : MutationOutcome α × Store :=
  match auth with
  | none => (.unauthenticated, s)
  | some c =>
    if c.role == Role.admin then
      let res := handler c
      (.handled res.1, res.2)
    else (.forbidden, s)

/-- `POST /project` with its `userAuth, adminAuth` middleware chain. -/
def createProjectEndpoint (auth : Option Caller) (s : Store)
    (title description : String) : MutationOutcome CreateProjectResult × Store :=
  withAdminAuth auth s (fun c => createProject c s title description)

/-- `DELETE /project/:id` with its middleware chain. -/
def deleteProjectEndpoint (auth : Option Caller) (s : Store) (projectId : DocId) :
    MutationOutcome DeleteResult × Store :=
  withAdminAuth auth s (fun _ => deleteProject s projectId)

/-- `POST /tasks` with its middleware chain. -/
def createTaskEndpoint (auth : Option Caller) (s : Store) (b : CreateTaskBody) :
    MutationOutcome CreateTaskResult × Store :=
  withAdminAuth auth s (fun c => createTask c s b)

/-- `PATCH /tasks/:id` with its middleware chain. -/
def updateTaskEndpoint (auth : Option Caller) (s : Store) (taskId : DocId)
    (u : TaskUpdate) : MutationOutcome UpdateTaskResult × Store :=
  withAdminAuth auth s (fun _ => updateTask s taskId u)

/-- `DELETE /tasks/:id` with its middleware chain. -/
def deleteTaskEndpoint (auth : Option Caller) (s : Store) (taskId : DocId) :
    MutationOutcome DeleteResult × Store :=
  withAdminAuth auth s (fun _ => deleteTask s taskId)

/-- Modelled from the spec: bcrypt is an external collaborator ("the
password-hashing primitive"), specified only by its contract; the hash is
modelled as an injective tagging of the plaintext so that
`bcryptCompare p (bcryptHash q)` holds exactly when `p = q`. -/
def bcryptHash (p : String) : String := "bcrypt." ++ p

/-- Modelled from the spec: `bcrypt.compare(password, storedHash)`. -/
def bcryptCompare (password storedHash : String) : Bool :=
  storedHash == bcryptHash password

/-- The signed JWT payload of `POST /signin`:
`jwt.sign({id: user._id.toString(), role: user.role}, JWT_KEY)`.  The
token-signing primitive is an external collaborator, so the token is
modelled as its payload. -/
structure Token where
  id : DocId
  role : Role
deriving DecidableEq

/-- Request body of `POST /signup`; `role` is optional in the zod schema. -/
structure SignupBody where
  name : String
  email : String
  password : String
  role : Option Role
deriving DecidableEq

/-- Models the zod email check `z.string().email()` (request-body schema
validation is an external collaborator per the spec): the modelled
well-formedness condition is the presence of an @ separator. -/
def emailOk (e : String) : Bool := e.toList.contains '@'

/-- The zod `signupSchema` check: non-empty name, well-formed email,
password of at least 6 characters, role (when present) already enum-valued
in the model. -/
def signupValid (b : SignupBody) : Bool :=
  b.name != "" && emailOk b.email && decide (b.password.length ≥ 6)

/-- Outcome of `POST /signup`. -/
inductive SignupResult
  | badRequest
  | emailExists
  | created
deriving DecidableEq

/-- HTTP status code of a `POST /signup` outcome. -/
def SignupResult.status : SignupResult → Nat
  | .badRequest => 400
  | .emailExists => 409
  | .created => 201

/-- Handler of `POST /signup` (routes/auth.js): zod validation (400),
hash the password, `User.findOne({email})` pre-check (409 when the email
is taken), then `User.create`; an omitted role defaults to "user" by the
mongoose schema.  The route has no authentication middleware. -/
def signup (s : Store) (b : SignupBody) : SignupResult × Store :=
  if !signupValid b then (.badRequest, s)
  else if s.users.any (fun u => u.email == b.email) then (.emailExists, s)
  else
    (.created,
     { s with
        users := s.users ++
          [{ id := s.nextId, name := b.name, email := b.email,
             password := bcryptHash b.password, role := b.role.getD .user }]
        nextId := s.nextId + 1 })

/-- The zod `signinSchema` check: well-formed email and non-empty
password. -/
def signinValid (email password : String) : Bool :=
  emailOk email && password != ""

/-- Outcome of `POST /signin`. -/
inductive SigninResult
  | badRequest
  | noUser
  | wrongPassword
  | ok (token : Token)
deriving DecidableEq

/-- HTTP status code of a `POST /signin` outcome. -/
def SigninResult.status : SigninResult → Nat
  | .badRequest => 400
  | .noUser => 404
  | .wrongPassword => 401
  | .ok _ => 200

/-- Handler of `POST /signin` (routes/auth.js): zod validation (400),
`User.findOne({email})` (404 "signup first then login" when absent),
`bcrypt.compare` against the stored hash (401 "password is incorrect" on
mismatch), then 200 with a token whose payload is {id, role} of the
user. -/
def signin (s : Store) (email password : String) : SigninResult :=
  if !signinValid email password then .badRequest
  else
    match s.users.find? (fun u => u.email == email) with
    | none => .noUser
    | some u =>
      if !bcryptCompare password u.password then .wrongPassword
      else .ok { id := u.id, role := u.role }

/-- Spec-side description of the records a caller may see in
`listProjects` (spec 4.1 `buildListFilter`): everything for an admin, the
owner-or-member subset otherwise.  Stated from the spec's words, to be
compared with the route's two branches. -/
def visibleProjects (c : Caller) (s : Store) : List ProjectRec :=
  if c.role == Role.admin then s.projects
  else s.projects.filter (projectVisible c)

/-- C1: for every non-admin authenticated caller and every store state,
`listProjects` (GET /project) returns only projects whose owner equals the
caller's id or whose members array contains the caller's id; no project
outside that set appears in the response items. -/
theorem listProjects_nonadmin_scope (c : Caller) (s : Store) (pq lq : QueryParam)
    (hc : c.role ≠ Role.admin) :
    ∀ p ∈ (listProjects c s pq lq).items, p.owner = c.id ∨ c.id ∈ p.members := by
  intro p hp
  have hb : (c.role == Role.admin) = false := by simpa using hc
  simp only [listProjects, hb, Bool.false_eq_true, if_false] at hp
  have h1 := List.mem_of_mem_take hp
  have h2 := List.mem_of_mem_drop h1
  have h3 := (List.mem_filter.mp h2).2
  simpa [projectVisible] using h3

def w1Caller : Caller := { id := 2, role := Role.user }

def w1Store : Store :=
  { users := []
    projects :=
      [ { id := 5, title := "a", description := "d", owner := 2, members := [] },
        { id := 6, title := "b", description := "d", owner := 3, members := [2, 4] },
        { id := 7, title := "c", description := "d", owner := 3, members := [4] } ]
    tasks := []
    nextId := 8 }

theorem listProjects_nonadmin_scope_witness :
    w1Caller.role ≠ Role.admin ∧
    ∀ p ∈ (listProjects w1Caller w1Store .absent (.num 5)).items,
      p.owner = w1Caller.id ∨ w1Caller.id ∈ p.members :=
  ⟨by decide, listProjects_nonadmin_scope w1Caller w1Store .absent (.num 5) (by decide)⟩

/-- C2: for every non-admin authenticated caller, every store state and
every combination of the status/priority/project user filters, `listTasks`
(GET /tasks) returns only tasks whose assignedto equals the caller's id or
whose project is one of the projects whose members array contains the
caller's id. -/
theorem listTasks_nonadmin_scope (c : Caller) (s : Store) (pq lq : QueryParam)
    (sf : Option TaskStatus) (pf : Option TaskPriority) (prf : Option DocId)
    (hc : c.role ≠ Role.admin) :
    ∀ t ∈ (listTasks c s pq lq sf pf prf).items,
      t.assignedto = c.id ∨ ∃ p ∈ s.projects, p.id = t.project ∧ c.id ∈ p.members := by
  intro t ht
  have hb : (c.role == Role.admin) = false := by simpa using hc
  simp only [listTasks, hb, Bool.false_eq_true, if_false] at ht
  have h1 := List.mem_of_mem_take ht
  have h2 := List.mem_of_mem_drop h1
  have h3 := (List.mem_filter.mp h2).2
  rw [Bool.and_eq_true, Bool.or_eq_true] at h3
  rcases h3.1 with h5 | h5
  · exact Or.inl (eq_of_beq h5)
  · right
    have h6 : t.project ∈ memberProjectIds c s := by simpa using h5
    simp only [memberProjectIds, List.mem_map] at h6
    obtain ⟨p, hp, hid⟩ := h6
    have hmem := List.mem_filter.mp hp
    exact ⟨p, hmem.1, hid, by simpa using hmem.2⟩

def w2Caller : Caller := { id := 9, role := Role.user }

def w2Store : Store :=
  { users := []
    projects :=
      [ { id := 1, title := "a", description := "d", owner := 3, members := [9] },
        { id := 2, title := "b", description := "d", owner := 3, members := [4] } ]
    tasks :=
      [ { id := 20, title := "t1", description := "d", status := .todo,
          priority := .medium, createdby := 3, project := 1, assignedto := 4,
          duedate := none },
        { id := 21, title := "t2", description := "d", status := .done,
          priority := .high, createdby := 3, project := 2, assignedto := 9,
          duedate := none },
        { id := 22, title := "t3", description := "d", status := .todo,
          priority := .low, createdby := 3, project := 2, assignedto := 4,
          duedate := none } ]
    nextId := 23 }

theorem listTasks_nonadmin_scope_witness :
    w2Caller.role ≠ Role.admin ∧
    ∀ t ∈ (listTasks w2Caller w2Store .absent (.num 5) none none none).items,
      t.assignedto = w2Caller.id ∨
        ∃ p ∈ w2Store.projects, p.id = t.project ∧ w2Caller.id ∈ p.members :=
  ⟨by decide,
   listTasks_nonadmin_scope w2Caller w2Store .absent (.num 5) none none none (by decide)⟩

/-- C3: every one of the five mutation endpoints — createProject,
deleteProject, createTask, updateTask, deleteTask — answers Forbidden
(403) for any authenticated non-admin caller and leaves the store
unchanged, and answers Unauthenticated (401) for a request without a valid
verified identity. -/
theorem mutations_admin_only (c : Caller) (s : Store) (title description : String)
    (pid tid : DocId) (b : CreateTaskBody) (u : TaskUpdate)
    (hc : c.role ≠ Role.admin) :
    createProjectEndpoint (some c) s title description = (.forbidden, s) ∧
    deleteProjectEndpoint (some c) s pid = (.forbidden, s) ∧
    createTaskEndpoint (some c) s b = (.forbidden, s) ∧
    updateTaskEndpoint (some c) s tid u = (.forbidden, s) ∧
    deleteTaskEndpoint (some c) s tid = (.forbidden, s) ∧
    createProjectEndpoint none s title description = (.unauthenticated, s) ∧
    deleteProjectEndpoint none s pid = (.unauthenticated, s) ∧
    createTaskEndpoint none s b = (.unauthenticated, s) ∧
    updateTaskEndpoint none s tid u = (.unauthenticated, s) ∧
    deleteTaskEndpoint none s tid = (.unauthenticated, s) := by
  have hb : (c.role == Role.admin) = false := by simpa using hc
  refine ⟨?_, ?_, ?_, ?_, ?_, ?_, ?_, ?_, ?_, ?_⟩ <;>
    simp [createProjectEndpoint, deleteProjectEndpoint, createTaskEndpoint,
          updateTaskEndpoint, deleteTaskEndpoint, withAdminAuth, hb]

def w3Caller : Caller := { id := 4, role := Role.user }

def w3Store : Store := { users := [], projects := [], tasks := [], nextId := 1 }

def w3Body : CreateTaskBody :=
  { title := "t", description := "d", project := 1, assignedto := 2,
    status := none, priority := none, duedate := none }

def w3Update : TaskUpdate :=
  { title := none, description := none, status := none, priority := none,
    createdby := none, project := none, assignedto := none, duedate := none }

theorem mutations_admin_only_witness :
    w3Caller.role ≠ Role.admin ∧
    (createProjectEndpoint (some w3Caller) w3Store "t" "d" = (.forbidden, w3Store) ∧
     deleteProjectEndpoint (some w3Caller) w3Store 1 = (.forbidden, w3Store) ∧
     createTaskEndpoint (some w3Caller) w3Store w3Body = (.forbidden, w3Store) ∧
     updateTaskEndpoint (some w3Caller) w3Store 1 w3Update = (.forbidden, w3Store) ∧
     deleteTaskEndpoint (some w3Caller) w3Store 1 = (.forbidden, w3Store) ∧
     createProjectEndpoint none w3Store "t" "d" = (.unauthenticated, w3Store) ∧
     deleteProjectEndpoint none w3Store 1 = (.unauthenticated, w3Store) ∧
     createTaskEndpoint none w3Store w3Body = (.unauthenticated, w3Store) ∧
     updateTaskEndpoint none w3Store 1 w3Update = (.unauthenticated, w3Store) ∧
     deleteTaskEndpoint none w3Store 1 = (.unauthenticated, w3Store)) :=
  ⟨by decide,
   mutations_admin_only w3Caller w3Store "t" "d" 1 1 w3Body w3Update (by decide)⟩

def c4Task : TaskRec :=
  { id := 1, title := "t", description := "d", status := .todo,
    priority := .medium, createdby := 0, project := 5, assignedto := 2,
    duedate := none }

def c4Store : Store := { users := [], projects := [], tasks := [c4Task], nextId := 6 }

/-- C4 counterexample: the claim quantifies over every caller, but an admin
caller (and likewise the assignee) short-circuits to 200 before the route
ever resolves the task's project, so `getTask` on an existing task whose
project is absent does not yield NotFound for such callers. -/
theorem getTask_orphan_admin_gets_ok :
    findTask c4Store 1 = some c4Task ∧
    findProject c4Store c4Task.project = none ∧
    getTask { id := 0, role := Role.admin } c4Store 1 = .ok c4Task ∧
    (getTask { id := 0, role := Role.admin } c4Store 1).status = 200 ∧
    getTask { id := 2, role := Role.user } c4Store 1 = .ok c4Task := by decide

/-- C4 (amended): for every caller who is neither an admin nor the task's
assignee, `getTask` on an existing task whose referenced project is absent
from the store yields NotFound (404), never Forbidden and never a
crash. -/
theorem getTask_orphan_notFound (c : Caller) (s : Store) (tid : DocId) (t : TaskRec)
    (ht : findTask s tid = some t)
    (hp : findProject s t.project = none)
    (hrole : c.role ≠ Role.admin)
    (hassign : t.assignedto ≠ c.id) :
    getTask c s tid = .notFoundProject ∧ (getTask c s tid).status = 404 := by
  have hb : (c.role == Role.admin) = false := by simpa using hrole
  have ha : (t.assignedto == c.id) = false := by simpa using hassign
  constructor <;> simp [getTask, ht, hb, ha, hp, GetTaskResult.status]

theorem getTask_orphan_notFound_witness :
    getTask { id := 3, role := Role.user } c4Store 1 = .notFoundProject ∧
    (getTask { id := 3, role := Role.user } c4Store 1).status = 404 :=
  getTask_orphan_notFound { id := 3, role := Role.user } c4Store 1 c4Task
    (by decide) (by decide) (by decide) (by decide)

/-- C5: for every admin caller and every non-empty title and description,
if a project with the same (title, owner = caller.id) pair already exists
in the store, `createProject` (POST /project) yields Conflict (409) and
the store gains no new project.  The route has no pre-insert check: this
Conflict is exactly the store's unique-index duplicate-key error E11000
remapped by the catch block, never surfaced as Internal. -/
theorem createProject_duplicate_conflict (c : Caller) (s : Store)
    (title description : String)
    (hc : c.role = Role.admin) (ht : title ≠ "") (hd : description ≠ "")
    (hdup : ∃ p ∈ s.projects, p.title = title ∧ p.owner = c.id) :
    createProjectEndpoint (some c) s title description = (.handled .conflict, s) := by
  have hb : (c.role == Role.admin) = true := by simpa using hc
  have ht2 : (title == "") = false := by simpa using ht
  have hd2 : (description == "") = false := by simpa using hd
  have hany : (s.projects.any fun p => p.title == title && p.owner == c.id) = true := by
    rw [List.any_eq_true]
    obtain ⟨p, hp, h1, h2⟩ := hdup
    exact ⟨p, hp, by simp [h1, h2]⟩
  simp [createProjectEndpoint, withAdminAuth, hb, createProject, ht2, hd2, hany]

def w5Store : Store :=
  { users := []
    projects := [{ id := 1, title := "redesign", description := "d", owner := 7, members := [] }]
    tasks := []
    nextId := 2 }

theorem createProject_duplicate_conflict_witness :
    createProjectEndpoint (some { id := 7, role := Role.admin }) w5Store "redesign" "d2" =
      (.handled .conflict, w5Store) :=
  createProject_duplicate_conflict { id := 7, role := Role.admin } w5Store "redesign" "d2"
    rfl (by decide) (by decide) (by decide)

/-- C6: for every admin caller and every valid request body, `createTask`
(POST /tasks) fails NotFound if the referenced project does not exist,
else NotFound if the assignee user does not exist, else Conflict if a task
with the same (title, projectId, assignedToId) triple already exists;
otherwise it persists the task with createdby = caller.id, status
defaulting to todo and priority defaulting to medium when absent, and
returns the created task's id. -/
theorem createTask_cases (c : Caller) (s : Store) (b : CreateTaskBody)
    (hc : c.role = Role.admin) (ht : b.title ≠ "") (hd : b.description ≠ "") :
    (findProject s b.project = none →
        createTaskEndpoint (some c) s b = (.handled .notFoundProject, s)) ∧
    (findProject s b.project ≠ none → findUser s b.assignedto = none →
        createTaskEndpoint (some c) s b = (.handled .notFoundAssignee, s)) ∧
    (findProject s b.project ≠ none → findUser s b.assignedto ≠ none →
        (∃ t ∈ s.tasks, t.title = b.title ∧ t.project = b.project ∧
            t.assignedto = b.assignedto) →
        createTaskEndpoint (some c) s b = (.handled .conflict, s)) ∧
    (findProject s b.project ≠ none → findUser s b.assignedto ≠ none →
        (∀ t ∈ s.tasks, ¬(t.title = b.title ∧ t.project = b.project ∧
            t.assignedto = b.assignedto)) →
        createTaskEndpoint (some c) s b =
          (.handled (.created s.nextId),
           { s with tasks := s.tasks ++ [newTask c s b], nextId := s.nextId + 1 }) ∧
        (newTask c s b).createdby = c.id ∧
        (b.status = none → (newTask c s b).status = .todo) ∧
        (b.priority = none → (newTask c s b).priority = .medium)) := by
  have hb : (c.role == Role.admin) = true := by simpa using hc
  have ht2 : (b.title == "") = false := by simpa using ht
  have hd2 : (b.description == "") = false := by simpa using hd
  refine ⟨?_, ?_, ?_, ?_⟩
  · intro hp
    simp [createTaskEndpoint, withAdminAuth, hb, createTask, ht2, hd2, hp]
  · intro hp hu
    obtain ⟨p, hp2⟩ := Option.ne_none_iff_exists'.mp hp
    simp [createTaskEndpoint, withAdminAuth, hb, createTask, ht2, hd2, hp2, hu]
  · intro hp hu hdup
    obtain ⟨p, hp2⟩ := Option.ne_none_iff_exists'.mp hp
    obtain ⟨w, hw2⟩ := Option.ne_none_iff_exists'.mp hu
    have hany : (s.tasks.any fun t =>
        t.title == b.title && t.project == b.project && t.assignedto == b.assignedto) = true := by
      rw [List.any_eq_true]
      obtain ⟨t, htm, h1, h2, h3⟩ := hdup
      exact ⟨t, htm, by simp [h1, h2, h3]⟩
    simp [createTaskEndpoint, withAdminAuth, hb, createTask, ht2, hd2, hp2, hw2, hany]
  · intro hp hu hno
    obtain ⟨p, hp2⟩ := Option.ne_none_iff_exists'.mp hp
    obtain ⟨w, hw2⟩ := Option.ne_none_iff_exists'.mp hu
    have hany : (s.tasks.any fun t =>
        t.title == b.title && t.project == b.project && t.assignedto == b.assignedto) = false := by
      rw [List.any_eq_false]
      intro t htm
      have := hno t htm
      simpa using this
    refine ⟨?_, by simp [newTask], ?_, ?_⟩
    · simp [createTaskEndpoint, withAdminAuth, hb, createTask, ht2, hd2, hp2, hw2, hany]
    · intro h; simp [newTask, h]
    · intro h; simp [newTask, h]

def w6Caller : Caller := { id := 4, role := Role.admin }

def w6Store : Store :=
  { users := [{ id := 2, name := "u", email := "u@x", password := "p", role := Role.user }]
    projects := [{ id := 1, title := "p", description := "d", owner := 3, members := [] }]
    tasks := []
    nextId := 7 }

def w6Body : CreateTaskBody :=
  { title := "design", description := "d", project := 1, assignedto := 2,
    status := none, priority := none, duedate := none }

theorem createTask_cases_witness :
    createTaskEndpoint (some w6Caller) w6Store w6Body =
      (.handled (.created w6Store.nextId),
       { w6Store with tasks := w6Store.tasks ++ [newTask w6Caller w6Store w6Body],
                      nextId := w6Store.nextId + 1 }) ∧
    (newTask w6Caller w6Store w6Body).createdby = w6Caller.id ∧
    (newTask w6Caller w6Store w6Body).status = .todo ∧
    (newTask w6Caller w6Store w6Body).priority = .medium := by
  have h := (createTask_cases w6Caller w6Store w6Body rfl (by decide) (by decide)).2.2.2
    (by decide) (by decide) (by decide)
  exact ⟨h.1, h.2.1, h.2.2.1 rfl, h.2.2.2 rfl⟩

def c7Store : Store := { users := [], projects := [], tasks := [], nextId := 0 }

def c7Body : SignupBody :=
  { name := "eve", email := "eve@x.com", password := "secret1", role := some Role.admin }

/-- C7: `signup` (POST /signup) carries no authentication middleware and
accepts role = "admin" in its body: the request succeeds with 201 and
creates a user whose role is admin, and a caller bearing that identity
passes the admin-only mutation gate. -/
theorem signup_admin_self_serve :
    (signup c7Store c7Body).1 = .created ∧
    (signup c7Store c7Body).1.status = 201 ∧
    (∃ u ∈ (signup c7Store c7Body).2.users,
        u.email = c7Body.email ∧ u.role = Role.admin) ∧
    (createProjectEndpoint (some { id := 0, role := Role.admin })
        (signup c7Store c7Body).2 "t" "d").1 = .handled .created := by decide

/-- C8: for every caller and every store state, `listProjects` pages its
visible records with offset (page-1)*pageSize and limit pageSize, and
returns page, total = the count of records matching the caller's
visibility filter, and totalPages = ceil(total/pageSize); page and
pageSize each default to 1 when the query parameter is absent or
non-numeric. -/
theorem listProjects_pagination (c : Caller) (s : Store) (pq lq : QueryParam) :
    listProjects c s pq lq =
      { items := ((visibleProjects c s).drop
            ((parseIntOr1 pq - 1) * parseIntOr1 lq)).take (parseIntOr1 lq)
        page := parseIntOr1 pq
        totalPages := ceilDiv (visibleProjects c s).length (parseIntOr1 lq)
        total := (visibleProjects c s).length } ∧
    (listProjects c s pq lq).totalPages =
      (listProjects c s pq lq).total ⌈/⌉ parseIntOr1 lq ∧
    parseIntOr1 .absent = 1 ∧ parseIntOr1 .nonNumeric = 1 := by
  have hmain : listProjects c s pq lq =
      { items := ((visibleProjects c s).drop
            ((parseIntOr1 pq - 1) * parseIntOr1 lq)).take (parseIntOr1 lq)
        page := parseIntOr1 pq
        totalPages := ceilDiv (visibleProjects c s).length (parseIntOr1 lq)
        total := (visibleProjects c s).length } := by
    by_cases h : (c.role == Role.admin) = true
    · simp [listProjects, visibleProjects, h]
    · simp only [Bool.not_eq_true] at h
      simp [listProjects, visibleProjects, h]
  refine ⟨hmain, ?_, rfl, rfl⟩
  rw [hmain]
  simp [ceilDiv, Nat.ceilDiv_eq_add_pred_div]

/-- C9: for every admin caller, every existing task and every update body,
`updateTask` (PATCH /tasks/:id) changes only the fields present in the
body — every field absent from the body retains its prior value — and
returns the post-update record; on a missing id it fails NotFound and the
store is unchanged. -/
theorem updateTask_merge_frame (c : Caller) (s : Store) (tid : DocId)
    (u : TaskUpdate) (hc : c.role = Role.admin) :
    (findTask s tid = none →
        updateTaskEndpoint (some c) s tid u = (.handled .notFound, s)) ∧
    (∀ t, findTask s tid = some t →
        updateTaskEndpoint (some c) s tid u =
          (.handled (.ok (applyUpdate u t)),
           { s with tasks := (s.tasks.map fun x =>
               if x.id == tid then applyUpdate u t else x) }) ∧
        (u.title = none → (applyUpdate u t).title = t.title) ∧
        (u.description = none → (applyUpdate u t).description = t.description) ∧
        (u.status = none → (applyUpdate u t).status = t.status) ∧
        (u.priority = none → (applyUpdate u t).priority = t.priority) ∧
        (u.createdby = none → (applyUpdate u t).createdby = t.createdby) ∧
        (u.project = none → (applyUpdate u t).project = t.project) ∧
        (u.assignedto = none → (applyUpdate u t).assignedto = t.assignedto) ∧
        (u.duedate = none → (applyUpdate u t).duedate = t.duedate) ∧
        (applyUpdate u t).id = t.id) := by
  have hb : (c.role == Role.admin) = true := by simpa using hc
  constructor
  · intro hn
    simp [updateTaskEndpoint, withAdminAuth, hb, updateTask, hn]
  · intro t htf
    refine ⟨by simp [updateTaskEndpoint, withAdminAuth, hb, updateTask, htf],
            ?_, ?_, ?_, ?_, ?_, ?_, ?_, ?_, by simp [applyUpdate]⟩ <;>
      (intro h; simp [applyUpdate, h])

def w9Task : TaskRec :=
  { id := 11, title := "old", description := "od", status := .todo,
    priority := .low, createdby := 1, project := 2, assignedto := 3,
    duedate := some "2026-01-01" }

def w9Store : Store := { users := [], projects := [], tasks := [w9Task], nextId := 12 }

def w9Update : TaskUpdate :=
  { title := none, description := none, status := some .done, priority := none,
    createdby := none, project := none, assignedto := none, duedate := none }

theorem updateTask_merge_frame_witness :
    updateTaskEndpoint (some { id := 0, role := Role.admin }) w9Store 11 w9Update =
      (.handled (.ok (applyUpdate w9Update w9Task)),
       { w9Store with tasks := (w9Store.tasks.map fun x =>
           if x.id == 11 then applyUpdate w9Update w9Task else x) }) ∧
    (applyUpdate w9Update w9Task).title = w9Task.title ∧
    (applyUpdate w9Update w9Task).priority = w9Task.priority ∧
    (applyUpdate w9Update w9Task).duedate = w9Task.duedate := by
  have h := (updateTask_merge_frame { id := 0, role := Role.admin } w9Store 11 w9Update
    rfl).2 w9Task (by decide)
  exact ⟨h.1, h.2.1 rfl, h.2.2.2.2.1 rfl, h.2.2.2.2.2.2.2.2.1 rfl⟩

/-- C10: for every well-formed signin body, `signin` (POST /signin)
answers 404 when no user has the given email, 401 when the user exists
but the password does not match the stored hash, and otherwise 200 with a
token whose signed payload is exactly {id, role} of that user; and
`signup` with an email already belonging to an existing user answers
409. -/
theorem signin_signup_outcomes (s : Store) (email password : String)
    (b : SignupBody) (hv : signinValid email password = true) :
    ((∀ u ∈ s.users, u.email ≠ email) →
        signin s email password = .noUser ∧
        (signin s email password).status = 404) ∧
    (∀ u, s.users.find? (fun x => x.email == email) = some u →
        (bcryptCompare password u.password = false →
            signin s email password = .wrongPassword ∧
            (signin s email password).status = 401) ∧
        (bcryptCompare password u.password = true →
            signin s email password = .ok { id := u.id, role := u.role } ∧
            (signin s email password).status = 200)) ∧
    (signupValid b = true → (∃ u ∈ s.users, u.email = b.email) →
        signup s b = (.emailExists, s) ∧ (signup s b).1.status = 409) := by
  refine ⟨?_, ?_, ?_⟩
  · intro hnone
    have hfind : s.users.find? (fun x => x.email == email) = none := by
      rw [List.find?_eq_none]
      intro u hu
      simpa using hnone u hu
    constructor <;> simp [signin, hv, hfind, SigninResult.status]
  · intro u hfind
    constructor <;> intro hcmp <;> constructor <;>
      simp [signin, hv, hfind, hcmp, SigninResult.status]
  · intro hbv hex
    have hany : (s.users.any fun u => u.email == b.email) = true := by
      rw [List.any_eq_true]
      obtain ⟨u, hu, he⟩ := hex
      exact ⟨u, hu, by simp [he]⟩
    constructor <;> simp [signup, hbv, hany, SignupResult.status]

def w10User : UserRec :=
  { id := 3, name := "n", email := "a@x.co", password := bcryptHash "pw1234",
    role := Role.user }

def w10Store : Store := { users := [w10User], projects := [], tasks := [], nextId := 4 }

def w10Body : SignupBody :=
  { name := "m", email := "a@x.co", password := "pw5678", role := none }

theorem signin_signup_outcomes_witness :
    signin w10Store "a@x.co" "pw1234" = .ok { id := 3, role := Role.user } ∧
    signin w10Store "b@x.co" "pw1234" = .noUser ∧
    signin w10Store "a@x.co" "wrong1" = .wrongPassword ∧
    signup w10Store w10Body = (.emailExists, w10Store) := by
  refine ⟨?_, ?_, ?_, ?_⟩
  · exact (((signin_signup_outcomes w10Store "a@x.co" "pw1234" w10Body
      (by decide)).2.1 w10User (by decide)).2 (by decide)).1
  · exact ((signin_signup_outcomes w10Store "b@x.co" "pw1234" w10Body
      (by decide)).1 (by decide)).1
  · exact (((signin_signup_outcomes w10Store "a@x.co" "wrong1" w10Body
      (by decide)).2.1 w10User (by decide)).1 (by decide)).1
  · exact ((signin_signup_outcomes w10Store "a@x.co" "pw1234" w10Body
      (by decide)).2.2 (by decide) (by decide)).1
